import Mathlib

/-!
# Verification of the simple-shell command interpreter

A shallow embedding of `src/simple-shell.c` (a line-oriented command
interpreter with redirection `<` `>`, a two-process pipe `|`, background
execution `&`, and a one-slot `!!` history), together with proofs about
its tokenizer (`splitArgs`), plan builder / executor (`interpretArgs`),
redirection manager (`redirect`, `redirectToFile`), pipe orchestrator
(`forkAndPipeInto`) and read loop (`main`).

Modelling conventions:
* The interpreter process's descriptor table is a list indexed by fd
  number; `none` is a closed descriptor.  `dup` allocates the lowest
  free fd, as POSIX does.
* The file system is modelled by the list of file names that an
  `open(..., O_RDONLY)` would succeed on, plus a list of names on which
  `creat` would fail (permission problems etc.).
* Externally visible actions (file opens/creations, forks, error
  messages printed with fprintf) are recorded in an event log.
* C strings are Lean `String`/`List Char`; a NULL `char*` is `none`.
-/

namespace SimpleShell

/-- Externally visible events of the interpreter process, in program order:
file opens/creations performed by `redirectToFile`, forks performed by
`forkInto` / `forkAndPipeInto`, and the error messages the C code prints. -/
inductive Ev where
  /-- `open(file, O_RDONLY, ...)` succeeded (src line 126). -/
  | openRead (f : String)
  /-- `creat(file, S_IRUSR | S_IWUSR)` succeeded (src line 132); the
  `perm` argument records the permission bits (0o600 = 384). -/
  | creat (f : String) (perm : Nat)
  /-- `forkInto(exec_args, wait)` was reached: a child is forked and
  `execvp(args[0], args)` attempted in it (src lines 66-87). -/
  | forkExec (prog : Option String) (argv : List String) (wait : Bool)
  /-- `forkAndPipeInto(exec_args, pipe_prog, wait)` was reached
  (src lines 157-239). -/
  | forkPipe (argv : List String) (target : Option String) (wait : Bool)
  /-- "Multiple redirects in a single command unsupported!" (src line 269). -/
  | msgMultiRedirect
  /-- "Multiple pipes in a single command unsupported!" (src line 282). -/
  | msgMultiPipe
  /-- "Please specify a file to redirect into!" (src line 119). -/
  | msgMissingPath
  /-- "Failed to open file %s!" / "Failed to read/create file %s!"
  (src lines 127, 133). -/
  | msgOpenFail (f : String)
  /-- "Failed to redirect input/output." (src line 101). -/
  | msgRedirectFail
  /-- "Please enter a command!" (src line 345). -/
  | msgEmptyCommand
  /-- "No commands in history" (src line 360). -/
  | msgNoHistory
deriving DecidableEq, Repr

/-- `true` exactly on the events that fork an operating-system process. -/
def isSpawn : Ev → Bool
  | .forkExec _ _ _ => true
  | .forkPipe _ _ _ => true
  | _ => false

/-- `true` exactly on the events that touch a file named on the command
line (an externally visible file-system effect). -/
def isFileEffect : Ev → Bool
  | .openRead _ => true
  | .creat _ _ => true
  | _ => false

/-- What a descriptor of the interpreter process refers to. -/
inductive FdTarget where
  /-- the terminal device standard input was connected to at startup -/
  | stdinTty
  /-- the terminal device standard output was connected to at startup -/
  | stdoutTty
  /-- a file opened read-only by `open(f, O_RDONLY)` -/
  | fileR (f : String)
  /-- a file created/truncated by `creat(f, 0o600)` -/
  | fileW (f : String)
deriving DecidableEq, Repr

/-- State of the interpreter process visible to the shallow embedding:
its descriptor table, the file system, and the event log. -/
structure Sys where
  /-- descriptor table, indexed by fd number; `none` = closed -/
  fds : List (Option FdTarget)
  /-- names on which `open(f, O_RDONLY)` succeeds -/
  fs : List String
  /-- names on which `creat` fails -/
  creatFails : List String
  /-- log of externally visible events so far -/
  events : List Ev
deriving DecidableEq, Repr

/-- Append one event to the log. -/
def pushEv (e : Ev) (sys : Sys) : Sys :=
  { sys with events := sys.events ++ [e] }

/-- Allocate the lowest free descriptor, pointing it at `t`
(POSIX behaviour of `open`, `creat` and `dup`). -/
def allocFd (fds : List (Option FdTarget)) (t : FdTarget) :
    Nat × List (Option FdTarget) :=
  match fds with
  | [] => (0, [some t])
  | none :: rest => (0, some t :: rest)
  | some u :: rest =>
    let r := allocFd rest t
    (r.1 + 1, some u :: r.2)

/-- `dup(fd)`: duplicate a descriptor into the lowest free slot;
returns -1 and changes nothing if `fd` is closed. -/
def dupFd (fd : Nat) (sys : Sys) : Int × Sys :=
  match sys.fds.getD fd none with
  | none => (-1, sys)
  | some t =>
    let r := allocFd sys.fds t
    ((r.1 : Int), { sys with fds := r.2 })

/-- `dup2(src, dst)` where `src` may be the -1 sentinel: re-point `dst`
at `src`'s target; fails (no change to the table) if `src` is invalid
or closed.  Returns whether it succeeded. -/
def dup2Fd (src : Int) (dst : Nat) (sys : Sys) : Bool × Sys :=
  if src < 0 then (false, sys)
  else
    match sys.fds.getD src.toNat none with
    | none => (false, sys)
    | some t => (true, { sys with fds := sys.fds.set dst (some t) })

/-- `close(fd)` where `fd` may be the -1 sentinel. -/
def closeFd (fd : Int) (sys : Sys) : Sys :=
  if fd < 0 then sys
  else { sys with fds := sys.fds.set fd.toNat none }

/-- `redirect(source, dest, &error)` (src lines 94-105): duplicate `dest`
for later restoration, then `dup2(source, dest)`; on dup2 failure the
error flag is set and the message printed.  Returns the saved copy of
`dest` (the `dup` result), the error flag, and the new system state. -/
def redirect (source : Nat) (dest : Nat) (error : Bool) (sys : Sys) :
    Int × Bool × Sys :=
  let d := dupFd dest sys
  let r := dup2Fd (source : Int) dest d.2
  if r.1 then (d.1, error, r.2)
  else (d.1, true, pushEv .msgRedirectFail r.2)

/-- `redirectToFile(file, dest, &error)` (src lines 113-147): NULL path
fails; `dest == STDIN_FILENO` opens the file read-only, any other `dest`
goes through `creat(file, S_IRUSR | S_IWUSR)`; an open failure sets the
error flag and leaves the descriptor table untouched; on success the
swap is delegated to `redirect` and the now-redundant file descriptor
is closed.  Returns the saved copy of `dest`. -/
def redirectToFile (file : Option String) (dest : Nat) (error : Bool)
    (sys : Sys) : Int × Bool × Sys :=
  match file with
  | none => (-1, true, pushEv .msgMissingPath sys)
  | some f =>
    if dest = 0 then
      if sys.fs.contains f then
        let o := allocFd sys.fds (.fileR f)
        let sys1 := pushEv (.openRead f) { sys with fds := o.2 }
        let r := redirect o.1 dest error sys1
        (r.1, r.2.1, closeFd (o.1 : Int) r.2.2)
      else (-1, true, pushEv (.msgOpenFail f) sys)
    else
      if sys.creatFails.contains f then (-1, true, pushEv (.msgOpenFail f) sys)
      else
        let o := allocFd sys.fds (.fileW f)
        let sys1 := pushEv (.creat f 384)
          { sys with fds := o.2, fs := if sys.fs.contains f then sys.fs else f :: sys.fs }
        let r := redirect o.1 dest error sys1
        (r.1, r.2.1, closeFd (o.1 : Int) r.2.2)

/-! ## Tokenizer (`splitArgs`, src lines 32-57) -/

/-- The NUL character `'\0'`: the terminator `strtok` writes over the
delimiter ending each token, and the value `args[arg][0]` reads on an
empty C string. -/
def nulChar : Char := Char.ofNat 0

/-- One pass of the `strtok(line_cpy, " ")` loop of `splitArgs`
(src lines 42-54), modelled at the byte level.  `acc` holds the
(reversed) characters of the token being scanned.  Returns the token
list and the final content of the scanned buffer: delimiter spaces
that terminate a token are overwritten with NUL, spaces that merely
separate runs are skipped unmodified, token characters stay in place. -/
def strtokGo : List Char → List Char → List (List Char) × List Char
  | acc, [] => (if acc = [] then [] else [acc.reverse], [])
  | acc, c :: cs =>
    if c = ' ' then
      if acc = [] then
        let r := strtokGo [] cs
        (r.1, ' ' :: r.2)
      else
        let r := strtokGo [] cs
        (acc.reverse :: r.1, nulChar :: r.2)
    else
      let r := strtokGo (c :: acc) cs
      (r.1, c :: r.2)

/-- `splitArgs` (src lines 32-57) restricted to the tokens it stores:
the `strtok` loop stores a token while `count < MAX_ARG - 1 = 39` and
otherwise prints a warning and breaks, so the result is the first 39
`strtok` tokens. -/
def splitArgsToks (line : List Char) : List (List Char) :=
  ((strtokGo [] line).1).take 39

/-- `splitArgs` at the `String` level, as consumed by `main`. -/
def splitArgsStr (line : String) : List String :=
  (splitArgsToks line.data).map fun cs => String.mk cs

/-- Modelled from the spec (§4.1, the Tokenizer contract's vocabulary):
the space-separated tokens of a line, i.e. its maximal runs of
non-space characters, in left-to-right order. -/
def spaceTokens : List Char → List (List Char)
  | [] => []
  | c :: cs =>
    if c = ' ' then spaceTokens cs
    else (c :: cs.takeWhile (· ≠ ' ')) :: spaceTokens (cs.dropWhile (· ≠ ' '))
termination_by l => l.length
decreasing_by
  all_goals
    first
    | (simp only [List.length_cons]; omega)
    | (have h2 := (List.dropWhile_sublist (l := cs) (fun x => decide (x ≠ ' '))).length_le
       simp only [List.length_cons]
       omega)

/-- The two character buffers `splitArgs` can see: the caller's
`line_src` and its own local `line_cpy` (src lines 32-39). -/
structure SplitBuffers where
  /-- the caller's buffer (`line_buf` / `last_line_buf` of `main`) -/
  line_src : List Char
  /-- the local copy `strtok` is run on -/
  line_cpy : List Char
deriving DecidableEq, Repr

/-- `splitArgs` at the buffer level: `strcpy(line_cpy, line_src)` writes
the local copy, the `strtok` loop reads and mutates only `line_cpy`,
and the function returns the stored tokens.  The second component is
the state of both buffers when `splitArgs` returns. -/
def splitArgsBuffers (src : List Char) : List (List Char) × SplitBuffers :=
  let cpy := src
  let r := strtokGo [] cpy
  (r.1.take 39, { line_src := src, line_cpy := r.2 })

/-! ## Plan builder and executor (`interpretArgs`, src lines 247-317) -/

/-- The local state of `interpretArgs` while it scans the argument
array (src lines 251-259).  `redirectedFrom`/`redirectedTo` are
uninitialized ints in the C code and are only ever read after
`redirected` has been set (at which point both have been assigned);
the model gives them inert defaults. -/
structure IState where
  /-- `exec_args`: the non-control tokens collected so far -/
  execArgs : List String
  /-- `wait`: cleared by a `&` token -/
  wait : Bool
  /-- `error`: stops the scan and suppresses execution -/
  error : Bool
  /-- `redirected`: a redirect token has been processed -/
  redirected : Bool
  /-- `pipe`: a pipe token has been processed -/
  pipeFlag : Bool
  /-- `pipe_prog`: the pipe target token -/
  pipeProg : Option String
  /-- `redirected_from`: saved descriptor returned by `redirectToFile` -/
  redirectedFrom : Int
  /-- `redirected_to`: 0 for `<`, 1 for `>` -/
  redirectedTo : Nat
  /-- the interpreter process state -/
  sys : Sys
deriving DecidableEq, Repr

/-- The initial scan state of `interpretArgs` (src lines 251-259). -/
def initIState (sys : Sys) : IState :=
  { execArgs := [], wait := true, error := false, redirected := false,
    pipeFlag := false, pipeProg := none, redirectedFrom := -1,
    redirectedTo := 0, sys := sys }

/-- `args[arg][0]`: the first character of a token (`'\0'` on an empty
string, as in C). -/
def firstChar (t : String) : Char := t.data.headD nulChar

/-- The characters the scan of `interpretArgs` treats as control
tokens when they appear first in a token. -/
def isControlChar (c : Char) : Bool :=
  c = '<' || c = '>' || c = '|' || c = '&'

/-- The state update of the non-duplicate redirect branch
(src lines 272-274): set the flags and call
`redirectToFile(args[arg+1], redirected_to, &error)`; the consumed
operand is exactly the following array entry. -/
def applyRedirectTok (s : IState) (rto : Nat) (path : Option String) : IState :=
  let r := redirectToFile path rto s.error s.sys
  { s with redirected := true, redirectedTo := rto,
           redirectedFrom := r.1, error := r.2.1, sys := r.2.2 }

/-- The scanning loop of `interpretArgs` (src lines 262-298):
`for (arg = 0; arg < arg_count && !error; ++arg)` over the argument
array, classifying each token by its first character.  `args` is the
whole backing array of `main` (`none` = NULL entry), so the operand
read `args[++arg]` can fall on the entry just past `count`.  The C
loop advances `arg` by one or two positions per iteration; `fuel`
bounds the number of remaining iterations and never runs out for the
calls the program makes (it starts at `count`).  A NULL entry below
`count` never occurs in the program (the tokenizer fills all of them);
there the C code would dereference NULL, and the model stops. -/
def scanGo (args : List (Option String)) (count : Nat) :
    Nat → Nat → IState → IState
  | 0, _, s => s
  | fuel + 1, arg, s =>
    if arg < count ∧ s.error = false then
      match args.getD arg none with
      | none => s
      | some t =>
        if firstChar t = '<' ∨ firstChar t = '>' then
          if s.redirected then
            scanGo args count fuel (arg + 1)
              { s with error := true, sys := pushEv .msgMultiRedirect s.sys }
          else
            scanGo args count fuel (arg + 2)
              (applyRedirectTok s (if firstChar t = '<' then 0 else 1)
                (args.getD (arg + 1) none))
        else if firstChar t = '|' then
          if s.pipeFlag then
            scanGo args count fuel (arg + 1)
              { s with error := true, sys := pushEv .msgMultiPipe s.sys }
          else
            scanGo args count fuel (arg + 2)
              { s with pipeFlag := true, pipeProg := args.getD (arg + 1) none }
        else if firstChar t = '&' then
          scanGo args count fuel (arg + 1) { s with wait := false }
        else
          scanGo args count fuel (arg + 1)
            { s with execArgs := s.execArgs ++ [t] }
    else s

/-- The full scan of `interpretArgs` starting from its initial state. -/
def scanArgs (args : List (Option String)) (count : Nat) (sys : Sys) : IState :=
  scanGo args count count 0 (initIState sys)

/-- `interpretArgs(args, arg_count)` (src lines 247-317): scan the
argument array; if no error occurred, fork the planned command
(`forkAndPipeInto` when a pipe was seen, else `forkInto`); finally, if
a redirect was processed, restore the redirected descriptor with
`dup2(redirected_from, redirected_to); close(redirected_from)`
(src lines 312-315). -/
def interpretArgs (args : List (Option String)) (count : Nat) (sys : Sys) : Sys :=
  let s := scanGo args count count 0 (initIState sys)
  let sys1 :=
    if s.error = false then
      if s.pipeFlag then pushEv (.forkPipe s.execArgs s.pipeProg s.wait) s.sys
      else pushEv (.forkExec s.execArgs.head? s.execArgs s.wait) s.sys
    else s.sys
  if s.redirected then
    closeFd s.redirectedFrom (dup2Fd s.redirectedFrom s.redirectedTo sys1).2
  else sys1

/-! ## Pipe orchestrator (`forkAndPipeInto`, src lines 157-239)

`forkAndPipeInto(args, dest_prog, _wait)` forks a child; the child
creates the pipe and forks again.  The grandchild runs the writer
(`execvp(args[0], args)` with stdout on the pipe's write end); the
child itself runs the reader (`execlp(dest_prog, ...)` with stdin on
the pipe's read end).  The straight-line code of each process is
modelled as its sequence of process-control events. -/

/-- Process-control steps taken inside `forkAndPipeInto`. -/
inductive PipeEv where
  /-- `pipe(pipefd)` (src line 173) -/
  | createPipe
  /-- the inner `fork()` creating the writer process (src line 181) -/
  | forkWriter
  /-- `close(pipefd[0])` in the writer (src line 190) -/
  | closeReadEnd
  /-- `close(pipefd[1])` in the reader-to-be (src line 208) -/
  | closeWriteEnd
  /-- `redirect(pipefd[1], STDOUT_FILENO, &error)` (src line 193) -/
  | redirectStdoutToPipeWrite
  /-- `redirect(pipefd[0], STDIN_FILENO, &error)` (src line 213) -/
  | redirectStdinToPipeRead
  /-- `execvp(args[0], args)`: the writer program starts (src line 197) -/
  | execWriter
  /-- `wait(NULL)`: block until the writer process exits (src line 210) -/
  | waitForWriter
  /-- `execlp(dest_prog, dest_prog, NULL)`: the reader program starts
  (src line 217) -/
  | execReader
deriving DecidableEq, Repr

/-- The event sequence of `forkAndPipeInto`'s first child — the process
that ends up running the pipe target — on the success path
(src lines 170-230, `case 0` then `default`): it creates the pipe,
forks the writer, closes the write end, calls `wait(NULL)` for the
writer to exit, and only then redirects stdin to the pipe's read end
and execs the reader program. -/
def forkAndPipeIntoChildEvents : List PipeEv :=
  [.createPipe, .forkWriter, .closeWriteEnd, .waitForWriter,
   .redirectStdinToPipeRead, .execReader]

/-- The event sequence of the grandchild — the writer process — on the
success path (src lines 188-204, inner `case 0`). -/
def forkAndPipeIntoWriterEvents : List PipeEv :=
  [.closeReadEnd, .redirectStdoutToPipeWrite, .execWriter]

/-! ## Read loop and history (`main`, src lines 319-377) -/

/-- The state `main` carries across loop iterations: the one-slot
history buffer `last_line_buf`, the token array `args` (memset to
NULL once, before the loop; `splitArgs` only overwrites its first
`arg_count` entries), and the interpreter process state.
`last_line_buf` is modelled as starting empty, the content its
`strlen(last_line_buf) == 0` check presumes (the C code's own comment
says all memory is initialized, though the memset calls miss this
buffer).  Caveat on staleness: in the C, an `args` entry that has not
been freshly rewritten this iteration is a pointer into the local
`line_cpy` of an earlier, already-returned `splitArgs` call, whose
storage is reused by later calls (the next call's `strcpy` in the
same frame, intervening library calls), so reading such an entry has
no value determined by the program text; this model instead retains
the previous token's string value there, a simplification that is
adequate only because every theorem below reads exclusively entries
written during the iteration under consideration. -/
structure MainState where
  /-- `last_line_buf`: the stored previous command line -/
  lastLine : String
  /-- `args`: the persistent token array (`none` = NULL) -/
  argsArr : List (Option String)
  /-- the interpreter process state -/
  sys : Sys
  /-- set when the `exit` / `exit()` branch breaks the loop -/
  exited : Bool
deriving DecidableEq, Repr

/-- `splitArgs(line, args)` as seen by the caller: the first
`arg_count` entries of the array are overwritten with the new tokens.
The remaining entries keep their previous string values in the model;
in the C they are dangling pointers into the dead `line_cpy` frame of
an earlier call (see the `MainState` caveat), and no theorem in this
file reads one of them. -/
def writeArgs (arr : List (Option String)) (toks : List String) :
    List (Option String) :=
  toks.map some ++ arr.drop toks.length

/-- The startup state of `main` (src lines 322-329): empty history,
all 40 `args` entries NULL, stdin/stdout on the terminal, no events.
`fs` and `cf` describe the ambient file system (which names open
read-only successfully, and which names `creat` fails on). -/
def initMain (fs cf : List String) : MainState :=
  { lastLine := "", argsArr := List.replicate 40 none,
    sys := { fds := [some .stdinTty, some .stdoutTty], fs := fs,
             creatFails := cf, events := [] },
    exited := false }

/-- One iteration of `main`'s read loop on an input line (src lines
331-374, after `fgets` and newline stripping): tokenize into the
persistent `args` array; report an empty command if `args[0]` is NULL
or empty; handle `exit`/`exit()`; handle `!!` (report `NoHistory` and
skip the interpreter when the history slot is empty, otherwise
re-tokenize the stored line); otherwise store the line in the history
slot; finally run `interpretArgs` on the array. -/
def mainStep (st : MainState) (line : String) : MainState :=
  let toks := splitArgsStr line
  let arr := writeArgs st.argsArr toks
  let count := toks.length
  match arr.getD 0 none with
  | none => { st with argsArr := arr, sys := pushEv .msgEmptyCommand st.sys }
  | some a0 =>
    if a0 = "" then
      { st with argsArr := arr, sys := pushEv .msgEmptyCommand st.sys }
    else if a0 = "exit()" ∨ a0 = "exit" then
      { st with argsArr := arr, exited := true }
    else if a0 = "!!" then
      if st.lastLine = "" then
        { st with argsArr := arr, sys := pushEv .msgNoHistory st.sys }
      else
        let toks2 := splitArgsStr st.lastLine
        let arr2 := writeArgs arr toks2
        { st with argsArr := arr2,
                  sys := interpretArgs arr2 toks2.length st.sys }
    else
      { st with lastLine := line, argsArr := arr,
                sys := interpretArgs arr count st.sys }

/-! ## Invariants of the scan -/

/-- The descriptor table of the interpreter at the start of a command:
stdin and stdout open on the terminal, nothing else. -/
def baseFds : List (Option FdTarget) := [some .stdinTty, some .stdoutTty]

/-- The descriptor-table configurations reachable during the scan of
one command, starting from `baseFds`: either no redirect has been
applied (table untouched), or `redirectToFile` failed (saved fd is the
-1 sentinel, table untouched), or it succeeded (the saved duplicate of
the redirected descriptor sits at fd 3, the file descriptor itself was
already closed again, and the redirected descriptor is on the file). -/
def ScanInv (s : IState) : Prop :=
  (s.redirected = false ∧ s.sys.fds = baseFds)
  ∨ (s.redirected = true ∧ s.redirectedFrom = -1 ∧ s.sys.fds = baseFds)
  ∨ (s.redirected = true ∧ s.redirectedFrom = 3 ∧ s.redirectedTo = 0 ∧
      ∃ f, s.sys.fds = [some (.fileR f), some .stdoutTty, none, some .stdinTty])
  ∨ (s.redirected = true ∧ s.redirectedFrom = 3 ∧ s.redirectedTo = 1 ∧
      ∃ f, s.sys.fds = [some .stdinTty, some (.fileW f), none, some .stdoutTty])

/-! ## Basic lemmas about the system-state primitives -/

@[simp] theorem pushEv_fds (e : Ev) (sys : Sys) :
    (pushEv e sys).fds = sys.fds := rfl

@[simp] theorem pushEv_events (e : Ev) (sys : Sys) :
    (pushEv e sys).events = sys.events ++ [e] := rfl

@[simp] theorem closeFd_events (f : Int) (sys : Sys) :
    (closeFd f sys).events = sys.events := by
  unfold closeFd; split <;> rfl

@[simp] theorem dup2Fd_events (src : Int) (dst : Nat) (sys : Sys) :
    ((dup2Fd src dst sys).2).events = sys.events := by
  unfold dup2Fd
  split
  · rfl
  · split <;> rfl

@[simp] theorem dupFd_events (fd : Nat) (sys : Sys) :
    ((dupFd fd sys).2).events = sys.events := by
  unfold dupFd; split <;> rfl

/-- `redirect` appends at most an error message to the log, never a
fork event. -/
theorem redirect_events_filter (src dst : Nat) (e : Bool) (sys : Sys) :
    (((redirect src dst e sys).2.2).events).filter isSpawn
      = (sys.events).filter isSpawn := by
  unfold redirect
  dsimp only
  split
  · simp
  · simp [List.filter_append, List.filter_cons, isSpawn]

/-- `redirectToFile` appends only file-open/creation events and error
messages to the log, never a fork event. -/
theorem redirectToFile_events_filter (p : Option String) (d : Nat)
    (e : Bool) (sys : Sys) :
    (((redirectToFile p d e sys).2.2).events).filter isSpawn
      = (sys.events).filter isSpawn := by
  unfold redirectToFile
  split
  · simp [List.filter_append, List.filter_cons, isSpawn]
  · split
    · split
      · rw [closeFd_events, redirect_events_filter]
        simp [List.filter_append, List.filter_cons, isSpawn]
      · simp [List.filter_append, List.filter_cons, isSpawn]
    · split
      · simp [List.filter_append, List.filter_cons, isSpawn]
      · rw [closeFd_events, redirect_events_filter]
        simp [List.filter_append, List.filter_cons, isSpawn]

/-- Once the error flag is set, the scanning loop exits without doing
anything further (the `!error` part of the loop condition). -/
theorem scanGo_halt (args : List (Option String)) (count : Nat)
    (fuel arg : Nat) (s : IState) (h : s.error = true) :
    scanGo args count fuel arg s = s := by
  cases fuel with
  | zero => rfl
  | succ n => simp [scanGo, h]

/-- The scan itself never forks a process: every event it appends is a
file open/creation or an error message. -/
theorem scanGo_spawnfree (args : List (Option String)) (count : Nat) :
    ∀ (fuel arg : Nat) (s : IState),
      ((scanGo args count fuel arg s).sys.events).filter isSpawn
        = (s.sys.events).filter isSpawn := by
  intro fuel
  induction fuel with
  | zero => intro arg s; rfl
  | succ n ih =>
    intro arg s
    rw [scanGo]
    split
    · split
      · rfl
      · split
        · split
          · rw [ih]
            simp [List.filter_append, isSpawn, List.filter_cons]
          · rw [ih]
            simp only [applyRedirectTok]
            exact redirectToFile_events_filter _ _ _ _
        · split
          · split
            · rw [ih]
              simp [List.filter_append, isSpawn, List.filter_cons]
            · rw [ih]
          · split
            · rw [ih]
            · rw [ih]
    · rfl

/-- The scan from position `arg` on only ever reads array entries at
indices ≥ `arg` (the loop cursor moves strictly forward). -/
theorem scanGo_congr (args args2 : List (Option String)) (count : Nat) :
    ∀ (fuel arg : Nat) (s : IState),
      (∀ i, arg ≤ i → args.getD i none = args2.getD i none) →
      scanGo args count fuel arg s = scanGo args2 count fuel arg s := by
  intro fuel
  induction fuel with
  | zero => intro arg s h; rfl
  | succ n ih =>
    intro arg s h
    have h0 : args2.getD arg none = args.getD arg none := (h arg (le_refl arg)).symm
    have h1 : args2.getD (arg + 1) none = args.getD (arg + 1) none :=
      (h (arg + 1) (by omega)).symm
    rw [scanGo, scanGo, h0, h1]
    split
    · split
      · rfl
      · split
        · split
          · exact ih (arg + 1) _ fun i hi => h i (by omega)
          · exact ih (arg + 2) _ fun i hi => h i (by omega)
        · split
          · split
            · exact ih (arg + 1) _ fun i hi => h i (by omega)
            · exact ih (arg + 2) _ fun i hi => h i (by omega)
          · split
            · exact ih (arg + 1) _ fun i hi => h i (by omega)
            · exact ih (arg + 1) _ fun i hi => h i (by omega)
    · rfl

/-- Every token the scan adds to `exec_args` went through the final
`else` branch, so its first character is not a control character:
control tokens are never appended. -/
theorem scanGo_execArgs_controlfree (args : List (Option String))
    (count : Nat) :
    ∀ (fuel arg : Nat) (s : IState) (e : String),
      e ∈ (scanGo args count fuel arg s).execArgs →
      e ∈ s.execArgs ∨ isControlChar (firstChar e) = false := by
  intro fuel
  induction fuel with
  | zero => intro arg s e he; exact Or.inl he
  | succ n ih =>
    intro arg s e he
    rw [scanGo] at he
    split at he
    · split at he
      · exact Or.inl he
      · split at he
        · split at he
          · have hr := ih _ _ _ he; exact hr
          · have hr := ih _ _ _ he; exact hr
        · split at he
          · split at he
            · have hr := ih _ _ _ he; exact hr
            · have hr := ih _ _ _ he; exact hr
          · split at he
            · have hr := ih _ _ _ he; exact hr
            · rcases ih _ _ _ he with hm | hfree
              · rcases List.mem_append.mp hm with hm | hm
                · exact Or.inl hm
                · rcases List.mem_singleton.mp hm with rfl
                  right
                  simp only [isControlChar, Bool.or_eq_false_iff,
                    decide_eq_false_iff_not]
                  tauto
              · exact Or.inr hfree
    · exact Or.inl he

/-- `ScanInv` only depends on the redirect bookkeeping fields and the
descriptor table. -/
theorem ScanInv_of_fields (s s2 : IState)
    (hr : s2.redirected = s.redirected)
    (hf : s2.redirectedFrom = s.redirectedFrom)
    (ht : s2.redirectedTo = s.redirectedTo)
    (hd : s2.sys.fds = s.sys.fds)
    (hs : ScanInv s) : ScanInv s2 := by
  unfold ScanInv
  rw [hr, hf, ht, hd]
  exact hs

/-- Evaluation of `redirectToFile` on the base descriptor table: it
either fails with the -1 sentinel and an untouched table, or succeeds
returning saved descriptor 3, with the table in the corresponding
redirected shape. -/
theorem redirectToFile_baseFds (p : Option String) (rto : Nat)
    (hrto : rto = 0 ∨ rto = 1) (sys : Sys) (hfds : sys.fds = baseFds) :
    ((redirectToFile p rto false sys).1 = -1
      ∧ ((redirectToFile p rto false sys).2.2).fds = baseFds)
    ∨ ((redirectToFile p rto false sys).1 = 3 ∧ rto = 0
      ∧ ∃ f, ((redirectToFile p rto false sys).2.2).fds
          = [some (.fileR f), some .stdoutTty, none, some .stdinTty])
    ∨ ((redirectToFile p rto false sys).1 = 3 ∧ rto = 1
      ∧ ∃ f, ((redirectToFile p rto false sys).2.2).fds
          = [some .stdinTty, some (.fileW f), none, some .stdoutTty]) := by
  rcases p with _ | f
  · exact Or.inl ⟨rfl, hfds⟩
  · rcases hrto with h0 | h1
    · subst h0
      by_cases hc : f ∈ sys.fs
      · refine Or.inr (Or.inl ⟨?_, rfl, f, ?_⟩) <;>
          simp [redirectToFile, redirect, dupFd, dup2Fd, closeFd, allocFd,
            pushEv, hfds, baseFds, hc]
      · refine Or.inl ⟨?_, ?_⟩ <;>
          simp [redirectToFile, hc, hfds]
    · subst h1
      by_cases hc : f ∈ sys.creatFails
      · refine Or.inl ⟨?_, ?_⟩ <;>
          simp [redirectToFile, hc, hfds]
      · refine Or.inr (Or.inr ⟨?_, rfl, f, ?_⟩) <;>
          simp [redirectToFile, redirect, dupFd, dup2Fd, closeFd, allocFd,
            pushEv, hfds, baseFds, hc]

/-- The scan preserves `ScanInv`: starting from the base table, the
descriptor table is only ever in one of the expected configurations. -/
theorem scanGo_ScanInv (args : List (Option String)) (count : Nat) :
    ∀ (fuel arg : Nat) (s : IState),
      ScanInv s → ScanInv (scanGo args count fuel arg s) := by
  intro fuel
  induction fuel with
  | zero => intro arg s hs; exact hs
  | succ n ih =>
    intro arg s hs
    rw [scanGo]
    split
    · rename_i hguard
      split
      · exact hs
      · split
        · split
          · exact ih _ _ (ScanInv_of_fields s _ rfl rfl rfl rfl hs)
          · rename_i t heq hfc hnr
            have hredF : s.redirected = false := by
              revert hnr; cases s.redirected <;> simp
            have herrF : s.error = false := hguard.2
            have hbase : s.sys.fds = baseFds := by
              rcases hs with ⟨_, hb⟩ | ⟨hr, _, _⟩ | ⟨hr, _, _, _⟩ | ⟨hr, _, _, _⟩
              · exact hb
              all_goals rw [hredF] at hr; cases hr
            apply ih
            have hrto : (if firstChar t = '<' then 0 else 1) = 0
                ∨ (if firstChar t = '<' then 0 else 1) = 1 := by
              split <;> simp
            have hred := redirectToFile_baseFds (args.getD (arg + 1) none)
              (if firstChar t = '<' then 0 else 1) hrto s.sys hbase
            unfold ScanInv applyRedirectTok
            rw [herrF]
            dsimp only
            rcases hred with ⟨hm1, hmb⟩ | ⟨h3, h0, f, hshape⟩ | ⟨h3, h1, f, hshape⟩
            · exact Or.inr (Or.inl ⟨rfl, hm1, hmb⟩)
            · exact Or.inr (Or.inr (Or.inl ⟨rfl, h3, h0, f, hshape⟩))
            · exact Or.inr (Or.inr (Or.inr ⟨rfl, h3, h1, f, hshape⟩))
        · split
          · split
            · exact ih _ _ (ScanInv_of_fields s _ rfl rfl rfl rfl hs)
            · exact ih _ _ (ScanInv_of_fields s _ rfl rfl rfl rfl hs)
          · split
            · exact ih _ _ (ScanInv_of_fields s _ rfl rfl rfl rfl hs)
            · exact ih _ _ (ScanInv_of_fields s _ rfl rfl rfl rfl hs)
    · exact hs

/-- The restoration epilogue of `interpretArgs` (src lines 311-315)
brings descriptors 0 and 1 back to the terminal from every
configuration `ScanInv` allows, for any `sys1` whose table agrees with
the scan result (the fork step between scan and restore only appends
events). -/
theorem restore_step (s : IState) (sys1 : Sys)
    (hfds : sys1.fds = s.sys.fds) (hinv : ScanInv s) :
    ((if s.redirected then
        closeFd s.redirectedFrom
          (dup2Fd s.redirectedFrom s.redirectedTo sys1).2
      else sys1).fds.getD 0 none = some FdTarget.stdinTty)
    ∧ ((if s.redirected then
        closeFd s.redirectedFrom
          (dup2Fd s.redirectedFrom s.redirectedTo sys1).2
      else sys1).fds.getD 1 none = some FdTarget.stdoutTty) := by
  rcases hinv with ⟨hr, hb⟩ | ⟨hr, hf, hb⟩ | ⟨hr, hf, ht, f, hb⟩ | ⟨hr, hf, ht, f, hb⟩
  · rw [if_neg (by simp [hr]), hfds, hb]
    exact ⟨rfl, rfl⟩
  · rw [if_pos hr, hf]
    have hd : dup2Fd (-1) s.redirectedTo sys1 = (false, sys1) := by
      simp [dup2Fd]
    rw [hd]
    have hc : closeFd (-1) sys1 = sys1 := by simp [closeFd]
    rw [hc, hfds, hb]
    exact ⟨rfl, rfl⟩
  · rw [if_pos hr, hf, ht]
    have h3 : ((3 : Int)).toNat = 3 := rfl
    constructor <;>
      simp [dup2Fd, closeFd, hfds, hb, h3, List.getD]
  · rw [if_pos hr, hf, ht]
    have h3 : ((3 : Int)).toNat = 3 := rfl
    constructor <;>
      simp [dup2Fd, closeFd, hfds, hb, h3, List.getD]

/-- If the scan ends with the error flag set, `interpretArgs` skips the
fork step, so the whole call adds no fork event to the log. -/
theorem interpretArgs_error_spawnfree (args : List (Option String))
    (count : Nat) (sys : Sys)
    (herr : (scanArgs args count sys).error = true) :
    ((interpretArgs args count sys).events).filter isSpawn
      = (sys.events).filter isSpawn := by
  unfold scanArgs at herr
  unfold interpretArgs
  dsimp only
  rw [if_neg (show ¬(scanGo args count count 0 (initIState sys)).error = false
    by simp [herr])]
  have hscan := scanGo_spawnfree args count count 0 (initIState sys)
  split
  · rw [closeFd_events, dup2Fd_events]
    exact hscan
  · exact hscan

/-- The token list produced by the `strtok` loop, with an arbitrary
partially-scanned token `acc`, in terms of the runs of non-space
characters of the remaining input. -/
theorem strtokGo_tokens (l : List Char) :
    ∀ acc : List Char,
      (strtokGo acc l).1
        = if acc = [] then spaceTokens l
          else (acc.reverse ++ l.takeWhile (· ≠ ' '))
              :: spaceTokens (l.dropWhile (· ≠ ' ')) := by
  induction l with
  | nil =>
    intro acc
    by_cases h : acc = [] <;> simp [strtokGo, h, spaceTokens]
  | cons c cs ih =>
    intro acc
    by_cases hc : c = ' '
    · subst hc
      by_cases h : acc = []
      · simp [strtokGo, h, ih, spaceTokens]
      · simp [strtokGo, h, ih, spaceTokens]
    · by_cases h : acc = []
      · subst h
        rw [spaceTokens]
        simp [strtokGo, hc, ih]
      · rw [strtokGo]
        simp only [if_neg hc]
        rw [ih (c :: acc)]
        simp [h, hc, List.takeWhile_cons, List.dropWhile_cons]

/-- The `strtok` loop finds exactly the space-separated tokens. -/
theorem strtok_eq_spaceTokens (l : List Char) :
    (strtokGo [] l).1 = spaceTokens l := by
  rw [strtokGo_tokens]
  simp

/-! ## The claims -/

/-- Claim C1: the claim says the reader's spawn is never delayed until
the writer has fully exited.  The code does the opposite: in the event
sequence of `forkAndPipeInto`'s child process, the `wait(NULL)` for
the writer (src line 210) comes strictly before the exec of the reader
program (src line 217), so the reader only starts after the writer has
fully exited — the serialized variant §4.4 of the spec calls a defect. -/
theorem forkAndPipeInto_serializes :
    forkAndPipeIntoChildEvents.indexOf .waitForWriter
      < forkAndPipeIntoChildEvents.indexOf .execReader
    ∧ PipeEv.execReader ∈ forkAndPipeIntoChildEvents
    ∧ PipeEv.waitForWriter ∈ forkAndPipeIntoChildEvents := by decide

/-- Claim C2, counterexample: on `a > f1 < f2` the scan stops at the
structural error `DuplicateRedirect`, and indeed no process is
spawned — but the file `f1` named by the earlier redirect token has
already been created/truncated by `creat` (an externally visible
effect), because redirection is applied eagerly during the scan.  So
"no externally visible effect of the tokens seen so far … has been
applied" is false. -/
theorem interpretArgs_eager_redirect_effect :
    (Ev.msgMultiRedirect
        ∈ (interpretArgs [some "a", some ">", some "f1", some "<", some "f2"]
            5 ⟨baseFds, [], [], []⟩).events)
    ∧ ((interpretArgs [some "a", some ">", some "f1", some "<", some "f2"]
          5 ⟨baseFds, [], [], []⟩).events).filter isFileEffect
        = [Ev.creat "f1" 384]
    ∧ ((interpretArgs [some "a", some ">", some "f1", some "<", some "f2"]
          5 ⟨baseFds, [], [], []⟩).events).filter isSpawn = [] := by decide

/-- Claim C2, amended: when the scan of a command stops with its error
flag set (in particular at a structural `DuplicateRedirect` /
`DuplicatePipe` error), the pending execution is discarded: no process
is spawned for that command.  (Files named by an earlier successfully
processed redirect token may however already have been opened or
created, and the applied descriptor swap is undone by the restoration
epilogue — see C3.) -/
theorem scan_error_discards_execution (args : List (Option String))
    (count : Nat) (sys : Sys)
    (herr : (scanArgs args count sys).error = true) :
    ((interpretArgs args count sys).events).filter isSpawn
      = (sys.events).filter isSpawn :=
  interpretArgs_error_spawnfree args count sys herr

/-- Witness for C2's amended theorem at the counterexample input. -/
theorem scan_error_discards_execution_witness :
    ((scanArgs [some "a", some ">", some "f1", some "<", some "f2"] 5
        ⟨baseFds, [], [], []⟩).error = true)
    ∧ ((interpretArgs [some "a", some ">", some "f1", some "<", some "f2"] 5
        ⟨baseFds, [], [], []⟩).events).filter isSpawn = [] :=
  ⟨by decide,
   scan_error_discards_execution _ _ _ (by decide)⟩

/-- Claim C3: after `interpretArgs` finishes — on every exit path of
the scan (success, failed redirect, or mid-scan error) — descriptors 0
and 1 of the interpreter refer to the same targets as before the
command: the restoration epilogue (src lines 311-315) undoes any
redirection before the next line is read.  Quantified over every
argument array, count, ambient file system and prior event log. -/
theorem interpretArgs_restores_stdio (args : List (Option String))
    (count : Nat) (fs cf : List String) (evs : List Ev) :
    ((interpretArgs args count ⟨baseFds, fs, cf, evs⟩).fds.getD 0 none
        = (⟨baseFds, fs, cf, evs⟩ : Sys).fds.getD 0 none)
    ∧ ((interpretArgs args count ⟨baseFds, fs, cf, evs⟩).fds.getD 1 none
        = (⟨baseFds, fs, cf, evs⟩ : Sys).fds.getD 1 none) := by
  have hinv := scanGo_ScanInv args count count 0
    (initIState ⟨baseFds, fs, cf, evs⟩) (Or.inl ⟨rfl, rfl⟩)
  unfold interpretArgs
  dsimp only
  refine restore_step _ _ ?_ hinv
  split
  · split <;> rfl
  · rfl

/-- Claim C4: scanning a token whose first character is `<` or `>`
while a redirect is already set halts the whole remaining scan with
the error flag set and the `DuplicateRedirect` message logged; a `|`
token scanned while a pipe target is already set likewise fails with
`DuplicatePipe`; and on the concrete line `a < f1 < f2` (with `f1`
present) the command ends with `DuplicateRedirect` logged and no
process spawned. -/
theorem scan_duplicate_control_guards :
    (∀ (args : List (Option String)) (count fuel arg : Nat) (s : IState)
        (t : String),
      arg < count → s.error = false → args.getD arg none = some t →
      (firstChar t = '<' ∨ firstChar t = '>') → s.redirected = true →
      scanGo args count (fuel + 1) arg s
        = { s with error := true, sys := pushEv .msgMultiRedirect s.sys })
    ∧ (∀ (args : List (Option String)) (count fuel arg : Nat) (s : IState)
        (t : String),
      arg < count → s.error = false → args.getD arg none = some t →
      firstChar t = '|' → s.pipeFlag = true →
      scanGo args count (fuel + 1) arg s
        = { s with error := true, sys := pushEv .msgMultiPipe s.sys })
    ∧ ((Ev.msgMultiRedirect
        ∈ (interpretArgs [some "a", some "<", some "f1", some "<", some "f2"]
            5 ⟨baseFds, ["f1"], [], []⟩).events)
      ∧ ((interpretArgs [some "a", some "<", some "f1", some "<", some "f2"]
            5 ⟨baseFds, ["f1"], [], []⟩).events).filter isSpawn = []) := by
  refine ⟨?_, ?_, by decide⟩
  · intro args count fuel arg s t harg herr hget hfc hred
    rw [scanGo, if_pos (⟨harg, herr⟩ : arg < count ∧ s.error = false)]
    simp only [hget]
    rw [if_pos hfc, if_pos hred]
    exact scanGo_halt args count fuel (arg + 1) _ rfl
  · intro args count fuel arg s t harg herr hget hfc hpipe
    rw [scanGo, if_pos (⟨harg, herr⟩ : arg < count ∧ s.error = false)]
    simp only [hget]
    have hne : ¬(firstChar t = '<' ∨ firstChar t = '>') := by
      rw [hfc]; decide
    rw [if_neg hne, if_pos hfc, if_pos hpipe]
    exact scanGo_halt args count fuel (arg + 1) _ rfl

/-- Witness for C4: a `<` token reached with the redirect flag already
set halts the scan with `DuplicateRedirect`. -/
theorem scan_duplicate_control_guards_witness :
    (0 < 1 ∧ (firstChar "<" = '<' ∨ firstChar "<" = '>'))
    ∧ scanGo [some "<"] 1 1 0
        { initIState ⟨baseFds, [], [], []⟩ with redirected := true }
      = { { initIState ⟨baseFds, [], [], []⟩ with redirected := true } with
          error := true,
          sys := pushEv .msgMultiRedirect ⟨baseFds, [], [], []⟩ } :=
  ⟨⟨by decide, Or.inl rfl⟩,
   scan_duplicate_control_guards.1 [some "<"] 1 0 0
     { initIState ⟨baseFds, [], [], []⟩ with redirected := true } "<"
     (by decide) rfl rfl (Or.inl rfl) rfl⟩

/-- Claim C5: `redirectToFile(path, destFd)` fails with `MissingPath`
when the path is absent; on standard input it opens the path
read-only, on standard output it creates/truncates it with owner
read-write permission (mode bits 0o600 = 384); if the open fails it
fails with `FileOpenFailure` leaving the whole system state — in
particular `destFd` — untouched; on success it swaps the descriptor
via `redirect`, closes the now-redundant file descriptor (slot 2 is
closed again), leaves `destFd` as the live channel on the file, and
returns the saved descriptor (3, which holds `destFd`'s old target). -/
theorem redirectToFile_contract (fs cf : List String) (evs : List Ev)
    (e : Bool) (f : String) (dest : Nat) :
    (redirectToFile none dest e ⟨baseFds, fs, cf, evs⟩
        = (-1, true, pushEv .msgMissingPath ⟨baseFds, fs, cf, evs⟩))
    ∧ (f ∉ fs →
        redirectToFile (some f) 0 e ⟨baseFds, fs, cf, evs⟩
          = (-1, true, pushEv (.msgOpenFail f) ⟨baseFds, fs, cf, evs⟩))
    ∧ (f ∈ fs →
        redirectToFile (some f) 0 e ⟨baseFds, fs, cf, evs⟩
          = (3, e, ⟨[some (.fileR f), some .stdoutTty, none, some .stdinTty],
              fs, cf, evs ++ [.openRead f]⟩))
    ∧ (f ∈ cf →
        redirectToFile (some f) 1 e ⟨baseFds, fs, cf, evs⟩
          = (-1, true, pushEv (.msgOpenFail f) ⟨baseFds, fs, cf, evs⟩))
    ∧ (f ∉ cf →
        redirectToFile (some f) 1 e ⟨baseFds, fs, cf, evs⟩
          = (3, e, ⟨[some .stdinTty, some (.fileW f), none, some .stdoutTty],
              if fs.contains f then fs else f :: fs, cf,
              evs ++ [.creat f 384]⟩)) := by
  refine ⟨rfl, ?_, ?_, ?_, ?_⟩ <;> intro h <;>
    simp [redirectToFile, redirect, dupFd, dup2Fd, closeFd, allocFd,
      pushEv, baseFds, h]

/-- Witness for C5: the success conjuncts evaluated on concrete files
(`in` present for input redirection, `out` created for output
redirection), and a missing-file failure. -/
theorem redirectToFile_contract_witness :
    ("in" ∈ (["in"] : List String)
      ∧ redirectToFile (some "in") 0 false ⟨baseFds, ["in"], [], []⟩
          = (3, false,
              ⟨[some (.fileR "in"), some .stdoutTty, none, some .stdinTty],
                ["in"], [], [.openRead "in"]⟩))
    ∧ ("out" ∉ ([] : List String)
      ∧ redirectToFile (some "out") 1 false ⟨baseFds, [], [], []⟩
          = (3, false,
              ⟨[some .stdinTty, some (.fileW "out"), none, some .stdoutTty],
                ["out"], [], [.creat "out" 384]⟩))
    ∧ ("gone" ∉ ([] : List String)
      ∧ redirectToFile (some "gone") 0 false ⟨baseFds, [], [], []⟩
          = (-1, true, pushEv (.msgOpenFail "gone") ⟨baseFds, [], [], []⟩)) :=
  ⟨⟨by decide, (redirectToFile_contract ["in"] [] [] false "in" 0).2.2.1
      (by decide)⟩,
   ⟨by decide, (redirectToFile_contract [] [] [] false "out" 1).2.2.2.2
      (by decide)⟩,
   ⟨by decide, (redirectToFile_contract [] [] [] false "gone" 0).2.1
      (by decide)⟩⟩

/-- Claim C6: for every line whose space-separated token sequence has
at most 39 tokens, `splitArgs` returns exactly that token sequence
(same count, same left-to-right order); an empty line yields zero
tokens. -/
theorem splitArgs_exact_tokens :
    (∀ line : List Char, (spaceTokens line).length ≤ 39 →
      splitArgsToks line = spaceTokens line)
    ∧ splitArgsToks [] = [] := by
  constructor
  · intro line hlen
    unfold splitArgsToks
    rw [strtok_eq_spaceTokens]
    exact List.take_of_length_le hlen
  · rfl

/-- Witness for C6 on the two-token line `a b`. -/
theorem splitArgs_exact_tokens_witness :
    (spaceTokens ('a' :: ' ' :: 'b' :: [])).length ≤ 39
    ∧ splitArgsToks ('a' :: ' ' :: 'b' :: [])
        = spaceTokens ('a' :: ' ' :: 'b' :: []) :=
  ⟨by rw [← strtok_eq_spaceTokens]; decide,
   splitArgs_exact_tokens.1 ('a' :: ' ' :: 'b' :: [])
     (by rw [← strtok_eq_spaceTokens]; decide)⟩

/-- Claim C7: when `!!` is the sole token of the input line and the
history slot is empty (as it is immediately after startup), the read
loop reports `NoHistory`, skips invoking the interpreter core for that
turn (the only new event is the message — no file effect, no fork),
and leaves the history slot empty. -/
theorem mainStep_noHistory (st : MainState) (line : String)
    (htoks : splitArgsStr line = ["!!"]) (hhist : st.lastLine = "") :
    ((mainStep st line).sys.events = st.sys.events ++ [Ev.msgNoHistory])
    ∧ (((mainStep st line).sys.events).filter isSpawn
        = (st.sys.events).filter isSpawn)
    ∧ (mainStep st line).lastLine = "" := by
  unfold mainStep
  rw [htoks]
  dsimp only
  have harr : writeArgs st.argsArr ["!!"] = some "!!" :: st.argsArr.drop 1 := rfl
  rw [harr]
  simp [hhist, List.filter_append, List.filter_cons, isSpawn, pushEv]

/-- Witness for C7: the very first line after startup is `!!`. -/
theorem mainStep_noHistory_witness :
    (splitArgsStr "!!" = ["!!"] ∧ (initMain [] []).lastLine = "")
    ∧ (mainStep (initMain [] []) "!!").sys.events
        = (initMain [] []).sys.events ++ [Ev.msgNoHistory] :=
  ⟨⟨rfl, rfl⟩, (mainStep_noHistory (initMain [] []) "!!" rfl rfl).1⟩

/-- Claim C9: `splitArgs` copies the caller's line into its private
`line_cpy` buffer and runs the destructive `strtok` loop only on that
copy, so when it returns, the caller's original buffer is
byte-for-byte what it was, and the returned tokens are the ones
`splitArgs` computes. -/
theorem splitArgs_leaves_caller_buffer (src : List Char) :
    ((splitArgsBuffers src).2).line_src = src
    ∧ (splitArgsBuffers src).1 = splitArgsToks src :=
  ⟨rfl, rfl⟩

/-- Claim C10: control-token classification in the scan depends only
on a token's first character.  (1) every element of `exec_args` either
was already there or has a non-control first character, so tokens
starting with `<`, `>`, `|` or `&` are never appended; (2)–(4) the
scan steps for `<`/`>`, `|` and `&` tokens, in which the operand of
`<`/`>`/`|` is exactly the *following* array entry — the scanned
token's own remaining characters are not mentioned at all; (5)
replacing a control token by any other token with the same first
character leaves the entire scan result unchanged. -/
theorem scan_classifies_by_first_char :
    (∀ (args : List (Option String)) (count fuel arg : Nat) (s : IState)
        (e : String),
      e ∈ (scanGo args count fuel arg s).execArgs →
      e ∈ s.execArgs ∨ isControlChar (firstChar e) = false)
    ∧ (∀ (args : List (Option String)) (count fuel arg : Nat) (s : IState)
        (t : String),
      arg < count → s.error = false → args.getD arg none = some t →
      (firstChar t = '<' ∨ firstChar t = '>') → s.redirected = false →
      scanGo args count (fuel + 1) arg s
        = scanGo args count fuel (arg + 2)
            (applyRedirectTok s (if firstChar t = '<' then 0 else 1)
              (args.getD (arg + 1) none)))
    ∧ (∀ (args : List (Option String)) (count fuel arg : Nat) (s : IState)
        (t : String),
      arg < count → s.error = false → args.getD arg none = some t →
      firstChar t = '|' → s.pipeFlag = false →
      scanGo args count (fuel + 1) arg s
        = scanGo args count fuel (arg + 2)
            { s with pipeFlag := true,
                     pipeProg := args.getD (arg + 1) none })
    ∧ (∀ (args : List (Option String)) (count fuel arg : Nat) (s : IState)
        (t : String),
      arg < count → s.error = false → args.getD arg none = some t →
      firstChar t = '&' →
      scanGo args count (fuel + 1) arg s
        = scanGo args count fuel (arg + 1) { s with wait := false })
    ∧ (∀ (args : List (Option String)) (count fuel arg : Nat) (s : IState)
        (t u : String),
      args.getD arg none = some t → firstChar u = firstChar t →
      isControlChar (firstChar t) = true →
      scanGo args count fuel arg s
        = scanGo (args.set arg (some u)) count fuel arg s) := by
  refine ⟨fun args count => scanGo_execArgs_controlfree args count,
    ?_, ?_, ?_, ?_⟩
  · intro args count fuel arg s t harg herr hget hfc hnred
    rw [scanGo, if_pos (⟨harg, herr⟩ : arg < count ∧ s.error = false)]
    simp only [hget]
    rw [if_pos hfc, if_neg (by simp [hnred])]
  · intro args count fuel arg s t harg herr hget hfc hnpipe
    rw [scanGo, if_pos (⟨harg, herr⟩ : arg < count ∧ s.error = false)]
    simp only [hget]
    rw [if_neg (by rw [hfc]; decide), if_pos hfc, if_neg (by simp [hnpipe])]
  · intro args count fuel arg s t harg herr hget hfc
    rw [scanGo, if_pos (⟨harg, herr⟩ : arg < count ∧ s.error = false)]
    simp only [hget]
    rw [if_neg (by rw [hfc]; decide), if_neg (by rw [hfc]; decide),
      if_pos hfc]
  · intro args count fuel arg s t u hget hu hctrl
    cases fuel with
    | zero => rfl
    | succ n =>
      have harg : arg < args.length := by
        by_contra hlen
        rw [List.getD_eq_getElem?_getD, List.getElem?_eq_none (by omega)]
          at hget
        cases hget
      have hself : (args.set arg (some u)).getD arg none = some u := by
        rw [List.getD_eq_getElem?_getD, List.getElem?_set_self harg]
        rfl
      have hop : (args.set arg (some u)).getD (arg + 1) none
          = args.getD (arg + 1) none := by
        rw [List.getD_eq_getElem?_getD,
          List.getElem?_set_ne (show arg ≠ arg + 1 by omega),
          ← List.getD_eq_getElem?_getD]
      have hagree : ∀ j, arg + 1 ≤ j →
          args.getD j none = (args.set arg (some u)).getD j none := by
        intro j hj
        rw [List.getD_eq_getElem?_getD,
          List.getD_eq_getElem?_getD,
          List.getElem?_set_ne (show arg ≠ j by omega)]
      rw [scanGo, scanGo]
      split
      · rw [hget, hself]
        dsimp only
        rw [hu, hop]
        split
        · split
          · exact scanGo_congr args _ count n (arg + 1) _ hagree
          · exact scanGo_congr args _ count n (arg + 2) _
              fun i hi => hagree i (by omega)
        · split
          · split
            · exact scanGo_congr args _ count n (arg + 1) _ hagree
            · exact scanGo_congr args _ count n (arg + 2) _
                fun i hi => hagree i (by omega)
          · split
            · exact scanGo_congr args _ count n (arg + 1) _ hagree
            · rename_i hn1 hn2 hn3
              have hfalse : isControlChar (firstChar t) = false := by
                simp only [isControlChar, Bool.or_eq_false_iff,
                  decide_eq_false_iff_not]
                tauto
              rw [hctrl] at hfalse
              cases hfalse
      · rfl

/-- Witness for C10: the `&` step on a concrete array, and the
first-character substitution on `<x` versus `<`. -/
theorem scan_classifies_by_first_char_witness :
    (firstChar "&" = '&'
      ∧ scanGo [some "&"] 1 1 0 (initIState ⟨baseFds, [], [], []⟩)
          = scanGo [some "&"] 1 0 1
              { initIState ⟨baseFds, [], [], []⟩ with wait := false })
    ∧ (firstChar "<" = firstChar "<x"
      ∧ isControlChar (firstChar "<x") = true
      ∧ scanGo [some "<x", some "p"] 2 2 0 (initIState ⟨baseFds, [], [], []⟩)
          = scanGo [some "<", some "p"] 2 2 0
              (initIState ⟨baseFds, [], [], []⟩)) :=
  ⟨⟨rfl, scan_classifies_by_first_char.2.2.2.1 [some "&"] 1 0 0
      (initIState ⟨baseFds, [], [], []⟩) "&" (by decide) rfl rfl rfl⟩,
   ⟨rfl, rfl, scan_classifies_by_first_char.2.2.2.2 [some "<x", some "p"] 2 2 0
      (initIState ⟨baseFds, [], [], []⟩) "<x" "<" rfl rfl rfl⟩⟩

end SimpleShell
